import Mathlib

/-!
Shallow embedding of the chatterbox chat server (Go) and proofs about it.

The embedding covers:
* `internal/domain/message.go` — the wire message record and its JSON codec;
* `internal/hub/room.go` and the hub-package room variant — membership,
  broadcast queue, join/leave, the fan-out loop, `Stop`;
* the hub event-loop handlers (`handleRegister`, `handleUnregister`);
* `internal/client/client.go` — the per-session frame dispatch;
* the SQLite store's `History` query.

Machine integers are modelled as `Nat`; a `time.Time` instant is modelled as
a `Nat` (0 is the zero instant).  Go channels appear as explicit queues
(`List`) in the state; `close` of a channel, which panics when the channel is
already closed, is modelled as an `Except` value.  Go maps used as sets are
modelled as duplicate-free lists with map-insert / map-delete semantics.
-/

namespace Chatterbox

/-- The wire message record of `internal/domain/message.go` (`domain.Message`):
fields `type`, `room`, `user`, `text` (strings, `omitempty`) and `timestamp`
(a `time.Time`, modelled as a `Nat` instant; the Go `omitempty` tag has no
effect on a struct field, so the timestamp is always emitted). -/
structure Message where
  type : String
  room : String
  user : String
  text : String
  timestamp : Nat
deriving DecidableEq, Repr

/-- A scalar JSON value as produced by `json.Marshal` for the fields of
`domain.Message`: strings, and the (abstracted) instant. -/
inductive JVal where
  | str (s : String)
  | num (n : Nat)
deriving DecidableEq, Repr

/-- `domain.Encode` specialised to `domain.Message`: the JSON object produced
by `json.Marshal`, field by field.  A string field carrying its zero value is
omitted (`omitempty`); the `timestamp` field is always present because
`omitempty` does not apply to a struct-typed field. -/
def encodeMessage (m : Message) : List (String × JVal) :=
  [("type", JVal.str m.type)] ++
  (if m.room = "" then [] else [("room", JVal.str m.room)]) ++
  (if m.user = "" then [] else [("user", JVal.str m.user)]) ++
  (if m.text = "" then [] else [("text", JVal.str m.text)]) ++
  [("timestamp", JVal.num m.timestamp)]

/-- Reading a string field during `json.Unmarshal`: a missing field keeps the
zero value, a field of the wrong JSON type is an unmarshal error. -/
def jStr : Option JVal → Except String String
  | none => Except.ok ""
  | some (JVal.str s) => Except.ok s
  | some _ => Except.error "cannot unmarshal into string field"

/-- Reading the timestamp field during `json.Unmarshal`: a missing field keeps
the zero instant, a field of the wrong JSON type is an unmarshal error. -/
def jNum : Option JVal → Except String Nat
  | none => Except.ok 0
  | some (JVal.num n) => Except.ok n
  | some _ => Except.error "cannot unmarshal into time field"

/-- `domain.DecodeMessage`: `json.Unmarshal` of an object into a
`domain.Message`.  Unknown keys are ignored, absent keys leave the zero
value. -/
def decodeMessage (o : List (String × JVal)) : Except String Message := do
  let t ← jStr (o.lookup "type")
  let r ← jStr (o.lookup "room")
  let u ← jStr (o.lookup "user")
  let x ← jStr (o.lookup "text")
  let ts ← jNum (o.lookup "timestamp")
  pure { type := t, room := r, user := u, text := x, timestamp := ts }

/-- C7: for every inbound-shaped message `m`, `DecodeMessage (Encode m)`
succeeds and returns `m`: omitted zero-valued fields decode back to their
zero values, so the round trip is the identity. -/
theorem decode_encode_roundtrip (m : Message) :
    decodeMessage (encodeMessage m) = Except.ok m := by
  rcases m with ⟨t, r, u, x, ts⟩
  by_cases hr : r = "" <;> by_cases hu : u = "" <;> by_cases hx : x = "" <;>
    simp [encodeMessage, decodeMessage, jStr, jNum, List.lookup, hr, hu, hx] <;>
    rfl

/-- A connected session as the room sees it (the `hub.Client` interface):
an identity (Go compares map keys by pointer identity, modelled by `id`) and
the `Username()` it reports. -/
structure ClientH where
  id : Nat
  username : String
deriving DecidableEq, Repr

/-- An already-encoded outbound frame: the four Go structs that get passed to
`domain.Encode` before a `Send` or a broadcast.  Encoding is injective and
never fails on these shapes, so frames are modelled structurally. -/
inductive Frame where
  | msg (m : Message)
  | history (room : String) (msgs : List Message)
  | presence (room : String) (users : List String)
  | err (message : String)
deriving DecidableEq, Repr

/-- An observable effect of a room or hub operation: a direct `Send` to one
session's outbound queue, or an enqueue onto the room's broadcast channel. -/
inductive Event where
  | direct (c : ClientH) (f : Frame)
  | enqueue (f : Frame)
deriving DecidableEq, Repr

/-- The state of a `hub.Room`: its name, the `clients` membership map
(modelled as a duplicate-free list), the `broadcast` channel's queued frames,
and the configured `history` limit. -/
structure RoomState where
  name : String
  clients : List ClientH
  queue : List Frame
  history : Nat
deriving DecidableEq, Repr

/-- Map insert `r.clients[c] = true`: a no-op when the key is present. -/
def addClient (cs : List ClientH) (c : ClientH) : List ClientH :=
  if c ∈ cs then cs else cs ++ [c]

/-- Map delete `delete(r.clients, c)`: removes the key if present. -/
def removeClient (cs : List ClientH) (c : ClientH) : List ClientH :=
  cs.filter (fun x => x ≠ c)

/-- The `join` notification a room broadcasts:
`domain.Message{Type: MsgJoin, Room: r.name, User: c.Username()}`. -/
def joinNotice (roomName : String) (c : ClientH) : Frame :=
  Frame.msg { type := "join", room := roomName, user := c.username, text := "", timestamp := 0 }

/-- The `leave` notification a room broadcasts:
`domain.Message{Type: MsgLeave, Room: r.name, User: c.Username()}`. -/
def leaveNotice (roomName : String) (c : ClientH) : Frame :=
  Frame.msg { type := "leave", room := roomName, user := c.username, text := "", timestamp := 0 }

/-- `Room.Leave` (`room.go` lines 92–101 / part_002 lines 123–135): delete the
client from the membership map, then unconditionally enqueue a `leave`
notification on the broadcast channel.  There is no membership check. -/
def roomLeave (s : RoomState) (c : ClientH) : RoomState :=
  { s with
    clients := removeClient s.clients c,
    queue := s.queue ++ [leaveNotice s.name c] }

/-- `Room.Join` (part_002 lines 84–120): add the client to the membership map;
then read history from the store (`histRes` is the store's answer for this
room) and, on success with a non-empty result, `Send` a `history` frame
directly to the joiner (a store error is logged and skipped); then enqueue a
`join` notification on the broadcast channel; then `Send` a `presence` frame
with the current usernames directly to the joiner.  Returns the new state and
the ordered trace of effects. -/
def roomJoin (s : RoomState) (c : ClientH) (histRes : Except String (List Message)) :
    RoomState × List Event :=
  let clients1 := addClient s.clients c
  let histEvents :=
    match histRes with
    | Except.error _ => []
    | Except.ok msgs =>
        if msgs.length > 0 then [Event.direct c (Frame.history s.name msgs)] else []
  ({ s with clients := clients1, queue := s.queue ++ [joinNotice s.name c] },
   histEvents ++
     [Event.enqueue (joinNotice s.name c),
      Event.direct c (Frame.presence s.name (clients1.map ClientH.username))])

/-- Closing a Go channel: panics (`Except.error`) when the channel is already
closed, otherwise marks it closed. -/
def closeChan (closed : Bool) : Except String Bool :=
  if closed then Except.error "close of closed channel" else Except.ok true

/-- The shutdown-related state of a room: whether its `quit` channel has been
closed, and whether its `stopOnce` guard has fired. -/
structure RoomStop where
  quitClosed : Bool
  stopOnceDone : Bool
deriving DecidableEq, Repr

/-- `Room.Stop` of part_002 (lines 77–81): `stopOnce.Do(func() { close(r.quit) })` —
the close runs only the first time. -/
def roomStopOnce (s : RoomStop) : Except String RoomStop :=
  if s.stopOnceDone then Except.ok s
  else (closeChan s.quitClosed).map (fun _ => { quitClosed := true, stopOnceDone := true })

/-- `Room.Stop` of `room.go` (lines 56–58): a bare `close(r.quit)` with no
guard. -/
def roomStopPlain (quitClosed : Bool) : Except String Bool :=
  closeChan quitClosed

/-- `Hub.Stop` (part_001 lines 73–80): `close(h.quit)`, then `Stop` every room
in the directory. -/
def hubStop (quitClosed : Bool) (rooms : List RoomStop) : Except String (Bool × List RoomStop) := do
  let _ ← closeChan quitClosed
  let rs ← rooms.mapM roomStopOnce
  pure (true, rs)

/-- One fan-out delivery pass of `Room.Run`: send the dequeued frame to every
snapshotted member in order.  `panics c f` says delivery of `f` to `c`
panics; a panic aborts the pass (later members get nothing).  Returns the
successful sends in order and whether a panic occurred. -/
def sendAll (panics : ClientH → Frame → Bool) (f : Frame) :
    List ClientH → List (ClientH × Frame) × Bool
  | [] => ([], false)
  | c :: rest =>
    if panics c f then ([], true)
    else ((c, f) :: (sendAll panics f rest).1, (sendAll panics f rest).2)

/-- `Room.Run` of part_002 (lines 46–73): dequeue frames in order and fan each
out to the members.  The `defer`/`recover` wraps the whole function, so a
panic during a delivery is recovered and logged, and then `Run` returns:
remaining frames are not processed.  The `Bool` result records whether the
loop ended by a recovered panic. -/
def roomRun (panics : ClientH → Frame → Bool) (members : List ClientH) :
    List Frame → List (ClientH × Frame) × Bool
  | [] => ([], false)
  | f :: rest =>
    if (sendAll panics f members).2 then ((sendAll panics f members).1, true)
    else ((sendAll panics f members).1 ++ (roomRun panics members rest).1,
          (roomRun panics members rest).2)

/-- C1 counterexample: in a room whose only member is alice, `Leave(bob)` for
the non-member bob leaves the member set unchanged but still enqueues a
`leave` notification on the broadcast queue — the queue is no longer empty,
so the no-op-without-broadcast claim is false at this input. -/
theorem leave_nonmember_counterexample :
    (roomLeave ⟨"general", [⟨1, "alice"⟩], [], 50⟩ ⟨2, "bob"⟩).clients = [⟨1, "alice"⟩] ∧
    (roomLeave ⟨"general", [⟨1, "alice"⟩], [], 50⟩ ⟨2, "bob"⟩).queue ≠ ([] : List Frame) := by
  decide

/-- C1 amended: for every room and every session not in its member set,
`Leave` leaves the member set unchanged but still enqueues one `leave`
notification (carrying that session's username) on the broadcast queue. -/
theorem leave_nonmember_amended (s : RoomState) (c : ClientH) (h : c ∉ s.clients) :
    (roomLeave s c).clients = s.clients ∧
    (roomLeave s c).queue = s.queue ++ [leaveNotice s.name c] := by
  refine ⟨?_, rfl⟩
  show s.clients.filter (fun x => x ≠ c) = s.clients
  refine List.filter_eq_self.mpr ?_
  intro a ha
  have hac : a ≠ c := fun hac => h (hac ▸ ha)
  simp [hac]

/-- C1 amended, witness at a concrete input. -/
theorem leave_nonmember_witness :
    (roomLeave ⟨"lobby", [⟨1, "alice"⟩], [], 50⟩ ⟨2, "bob"⟩).clients = [⟨1, "alice"⟩] ∧
    (roomLeave ⟨"lobby", [⟨1, "alice"⟩], [], 50⟩ ⟨2, "bob"⟩).queue =
      [] ++ [leaveNotice "lobby" ⟨2, "bob"⟩] :=
  leave_nonmember_amended ⟨"lobby", [⟨1, "alice"⟩], [], 50⟩ ⟨2, "bob"⟩ (by decide)

/-- C2 counterexample: a first `Hub.Stop` from the fresh state completes
normally, but a second call panics with "close of closed channel" — `Hub.Stop`
is not idempotent. -/
theorem stop_second_call_counterexample :
    hubStop false [⟨false, false⟩] = Except.ok (true, [⟨true, true⟩]) ∧
    hubStop true [⟨true, true⟩] = Except.error "close of closed channel" :=
  ⟨rfl, rfl⟩

/-- C2 amended: the `sync.Once`-guarded `Room.Stop` (part_002) is idempotent —
after a successful call, every later call succeeds with no further effect;
but `Hub.Stop`, and the unguarded `Room.Stop` of `room.go`, panic when the
`quit` channel is already closed (as it is after a first call). -/
theorem stop_idempotence_amended :
    (∀ s s', roomStopOnce s = Except.ok s' → roomStopOnce s' = Except.ok s') ∧
    (∀ rooms, hubStop true rooms = Except.error "close of closed channel") ∧
    roomStopPlain true = Except.error "close of closed channel" := by
  refine ⟨?_, fun rooms => rfl, rfl⟩
  intro s s' h
  by_cases hd : s.stopOnceDone
  · simp [roomStopOnce, hd] at h
    subst h
    simp [roomStopOnce, hd]
  · by_cases hq : s.quitClosed
    · simp [roomStopOnce, hd, closeChan, hq, Except.map] at h
    · simp [roomStopOnce, hd, closeChan, hq, Except.map] at h
      subst h
      simp [roomStopOnce]

/-- C2 amended, witness: a second `Room.Stop` after the first one is a
successful no-op. -/
theorem stop_idempotence_witness :
    roomStopOnce ⟨true, true⟩ = Except.ok ⟨true, true⟩ :=
  stop_idempotence_amended.1 ⟨false, false⟩ ⟨true, true⟩ rfl

/-- C3 counterexample: with a delivery that panics on every send, a queue of
two frames, and one member, the fan-out loop delivers nothing at all: the
panic on the first frame is recovered but the loop terminates, so the second
frame is never delivered — refuting "the loop continues". -/
theorem run_panic_counterexample :
    (roomRun (fun _ _ => true) [⟨1, "alice"⟩] [Frame.err "a", Frame.err "b"]).1 = [] ∧
    (roomRun (fun _ _ => true) [⟨1, "alice"⟩] [Frame.err "a", Frame.err "b"]).2 = true := by
  decide

/-- C3 amended: if delivering a dequeued frame panics, the panic is recovered
(the loop returns normally instead of propagating it), but the fan-out loop
terminates: the frames before the panicking one are delivered in full, the
panicking frame's deliveries stop at the panic, and no later frame is
delivered. -/
theorem run_panic_stops_amended (p : ClientH → Frame → Bool) (members : List ClientH)
    (q1 : List Frame) (f : Frame) (q2 : List Frame)
    (h1 : ∀ g ∈ q1, (sendAll p g members).2 = false)
    (h2 : (sendAll p f members).2 = true) :
    roomRun p members (q1 ++ f :: q2) =
      ((q1.map (fun g => (sendAll p g members).1)).flatten ++ (sendAll p f members).1, true) := by
  induction q1 with
  | nil => simp [roomRun, h2]
  | cons g q ih =>
      have hg : (sendAll p g members).2 = false := h1 g (by simp)
      have ih2 := ih (fun g' hg' => h1 g' (by simp [hg']))
      simp [roomRun, hg, ih2]

/-- Delivery behaviour used by the C3 witness: only the frame tagged "b"
panics. -/
def panicOnB (_ : ClientH) (g : Frame) : Bool :=
  decide (g = Frame.err "b")

/-- C3 amended, witness: frame "a" is delivered, the panic on frame "b" ends
the loop, and frame "c" reaches nobody. -/
theorem run_panic_stops_witness :
    roomRun panicOnB [⟨1, "alice"⟩] [Frame.err "a", Frame.err "b", Frame.err "c"] =
      ([(⟨1, "alice"⟩, Frame.err "a")], true) := by
  simpa using
    run_panic_stops_amended panicOnB [⟨1, "alice"⟩] [Frame.err "a"] (Frame.err "b")
      [Frame.err "c"] (by decide) (by decide)

/-- C6: joining a room adds the session to the member set (also when the
history read fails, so the join still succeeds), enqueues exactly one `join`
notification on the broadcast queue, and produces, in order: a direct
`history` frame to the joiner when the store read succeeds non-empty (nothing
on a store error or an empty history), then the `join` enqueue, then a direct
`presence` frame to the joiner carrying the current usernames. -/
theorem roomJoin_spec (s : RoomState) (c : ClientH) (histRes : Except String (List Message)) :
    c ∈ (roomJoin s c histRes).1.clients ∧
    (roomJoin s c histRes).1.queue = s.queue ++ [joinNotice s.name c] ∧
    (roomJoin s c histRes).2 =
      (match histRes with
       | Except.ok msgs =>
           if msgs.length > 0 then [Event.direct c (Frame.history s.name msgs)] else []
       | Except.error _ => []) ++
      [Event.enqueue (joinNotice s.name c),
       Event.direct c (Frame.presence s.name ((addClient s.clients c).map ClientH.username))] := by
  refine ⟨?_, rfl, ?_⟩
  · show c ∈ addClient s.clients c
    by_cases h : c ∈ s.clients <;> simp [addClient, h]
  · cases histRes <;> rfl

/-- The state of the `hub.Hub` (part_001): the room directory (a map from
name to room, modelled as an association list with unique keys), and the
`maxRooms` / `maxHistory` limits. -/
structure HubState where
  rooms : List (String × RoomState)
  maxRooms : Nat
  maxHistory : Nat
deriving DecidableEq, Repr

/-- Directory lookup `h.rooms[name]`. -/
def lookupRoom (rs : List (String × RoomState)) (name : String) : Option RoomState :=
  rs.lookup name

/-- Directory update of an existing entry. -/
def setRoom (rs : List (String × RoomState)) (name : String) (r : RoomState) :
    List (String × RoomState) :=
  rs.map (fun p => if p.1 = name then (name, r) else p)

/-- Directory delete `delete(h.rooms, name)`. -/
def delRoom (rs : List (String × RoomState)) (name : String) : List (String × RoomState) :=
  rs.filter (fun p => p.1 ≠ name)

/-- `NewRoom` (part_002 lines 33–42): fresh membership map, empty broadcast
channel, the given history limit. -/
def newRoom (name : String) (historyLimit : Nat) : RoomState :=
  { name := name, clients := [], queue := [], history := historyLimit }

/-- `Hub.handleRegister` (part_001 lines 125–144): if the named room exists,
`Join` it; otherwise, if the directory is at capacity, `Send` one `error`
frame "max rooms reached" to the requester and change nothing; otherwise
create the room, insert it, start its loop, and `Join`.  `histRes` is the
store's history answer consumed by `Join`. -/
def handleRegister (h : HubState) (c : ClientH) (roomName : String)
    (histRes : Except String (List Message)) : HubState × List Event :=
  match lookupRoom h.rooms roomName with
  | some r =>
      let res := roomJoin r c histRes
      ({ h with rooms := setRoom h.rooms roomName res.1 }, res.2)
  | none =>
      if h.rooms.length ≥ h.maxRooms then
        (h, [Event.direct c (Frame.err "max rooms reached")])
      else
        let res := roomJoin (newRoom roomName h.maxHistory) c histRes
        ({ h with rooms := h.rooms ++ [(roomName, res.1)] }, res.2)

/-- `Hub.handleUnregister` (part_001 lines 146–168): an unknown room name is a
silent no-op; otherwise `Leave` the room and, if its member count dropped to
zero (re-checked under the directory lock, which collapses to a single check
in this sequential embedding), stop it and delete it from the directory. -/
def handleUnregister (h : HubState) (c : ClientH) (roomName : String) :
    HubState × List Event :=
  match lookupRoom h.rooms roomName with
  | none => (h, [])
  | some r =>
      let r2 := roomLeave r c
      if r2.clients.length = 0 then
        ({ h with rooms := delRoom h.rooms roomName }, [])
      else
        ({ h with rooms := setRoom h.rooms roomName r2 }, [])

/-- C4: a registration for an unknown room name against a full directory
delivers exactly one `error` frame "max rooms reached" directly to the
requesting session, creates no room, and leaves the hub state unchanged. -/
theorem register_full_directory (h : HubState) (c : ClientH) (roomName : String)
    (histRes : Except String (List Message))
    (h1 : lookupRoom h.rooms roomName = none)
    (h2 : h.rooms.length ≥ h.maxRooms) :
    handleRegister h c roomName histRes =
      (h, [Event.direct c (Frame.err "max rooms reached")]) := by
  simp [handleRegister, h1, h2]

/-- C4 witness: a one-slot directory already holding "general" rejects a
registration for "other". -/
theorem register_full_directory_witness :
    handleRegister ⟨[("general", newRoom "general" 50)], 1, 50⟩ ⟨1, "alice"⟩ "other"
        (Except.ok []) =
      (⟨[("general", newRoom "general" 50)], 1, 50⟩,
       [Event.direct ⟨1, "alice"⟩ (Frame.err "max rooms reached")]) :=
  register_full_directory ⟨[("general", newRoom "general" 50)], 1, 50⟩ ⟨1, "alice"⟩ "other"
    (Except.ok []) (by decide) (by decide)

/-- C10: an `Unregister` intent naming a room that is not in the directory is
a silent no-op: the hub state is returned unchanged and no event — in
particular no frame to anyone — is produced. -/
theorem unregister_unknown_room (h : HubState) (c : ClientH) (roomName : String)
    (h1 : lookupRoom h.rooms roomName = none) :
    handleUnregister h c roomName = (h, []) := by
  simp [handleUnregister, h1]

/-- C10 witness: unregistering from "ghost" in a directory holding only
"general" changes nothing and emits nothing. -/
theorem unregister_unknown_room_witness :
    handleUnregister ⟨[("general", newRoom "general" 50)], 100, 50⟩ ⟨1, "alice"⟩ "ghost" =
      (⟨[("general", newRoom "general" 50)], 100, 50⟩, []) :=
  unregister_unknown_room ⟨[("general", newRoom "general" 50)], 100, 50⟩ ⟨1, "alice"⟩ "ghost"
    (by decide)

/-- The per-session state a `client.Client` carries for frame dispatch: its
username (fixed at upgrade) and its room set (a map used as a set). -/
structure ClientState where
  username : String
  rooms : List String
deriving DecidableEq, Repr

/-- An effect of the session's frame dispatch: a `Send` of a frame to its own
peer, or an intent (`Register`, `Unregister`, `RouteMessage`) queued on the
hub. -/
inductive CEvent where
  | sendSelf (f : Frame)
  | register (room : String)
  | unregister (room : String)
  | route (m : Message)
deriving DecidableEq, Repr

/-- The stamping a session applies before routing a `chat`:
`msg.User = c.username; msg.Timestamp = time.Now().UTC()` (the instant is the
`now` argument). -/
def stampChat (s : ClientState) (m : Message) (now : Nat) : Message :=
  { m with user := s.username, timestamp := now }

/-- `Client.handleMessage` (`client.go` lines 149–207), after a successful
decode: the dispatch switch on the frame's `type`.  `now` is the current UTC
instant used to stamp outgoing `chat` messages. -/
def handleMessage (s : ClientState) (m : Message) (now : Nat) : ClientState × List CEvent :=
  if m.type = "join" then
    if m.room = "" then (s, [CEvent.sendSelf (Frame.err "room name required")])
    else if m.room ∈ s.rooms then (s, [])
    else ({ s with rooms := s.rooms ++ [m.room] }, [CEvent.register m.room])
  else if m.type = "leave" then
    if m.room = "" then (s, [CEvent.sendSelf (Frame.err "room name required")])
    else ({ s with rooms := s.rooms.filter (fun x => x ≠ m.room) },
          [CEvent.unregister m.room])
  else if m.type = "chat" then
    if m.room = "" ∨ m.text = "" then
      (s, [CEvent.sendSelf (Frame.err "room and text required")])
    else if m.room ∈ s.rooms then
      (s, [CEvent.route (stampChat s m now)])
    else (s, [CEvent.sendSelf (Frame.err "not in room")])
  else (s, [CEvent.sendSelf (Frame.err ("unknown message type: " ++ m.type))])

/-- C8: an inbound `chat` frame with empty `room` or `text` draws exactly one
`error` frame to the session's own peer and is not routed; a `chat` for a
room the session is not in draws exactly one "not in room" `error` and is not
routed; otherwise exactly one `RouteMessage` intent is produced whose message
carries `user` equal to the session's (non-empty) username, the freshly
assigned non-zero timestamp `now`, and non-empty `room` and `text`. -/
theorem chat_dispatch (s : ClientState) (m : Message) (now : Nat)
    (hT : m.type = "chat") (hU : s.username ≠ "") (hN : 0 < now) :
    (m.room = "" ∨ m.text = "" →
      handleMessage s m now = (s, [CEvent.sendSelf (Frame.err "room and text required")])) ∧
    (m.room ≠ "" → m.text ≠ "" → m.room ∉ s.rooms →
      handleMessage s m now = (s, [CEvent.sendSelf (Frame.err "not in room")])) ∧
    (m.room ≠ "" → m.text ≠ "" → m.room ∈ s.rooms →
      handleMessage s m now = (s, [CEvent.route (stampChat s m now)]) ∧
      (stampChat s m now).room ≠ "" ∧
      (stampChat s m now).user = s.username ∧
      (stampChat s m now).user ≠ "" ∧
      (stampChat s m now).text ≠ "" ∧
      (stampChat s m now).timestamp = now ∧
      0 < (stampChat s m now).timestamp) := by
  refine ⟨?_, ?_, ?_⟩
  · intro h
    simp [handleMessage, hT, h]
  · intro h1 h2 h3
    simp [handleMessage, hT, h1, h2, h3]
  · intro h1 h2 h3
    refine ⟨by simp [handleMessage, hT, h1, h2, h3], h1, rfl, hU, h2, rfl, hN⟩

/-- C8 witness: a member of "general" sending a chat gets it routed with its
own username and the fresh timestamp. -/
theorem chat_dispatch_witness :
    handleMessage ⟨"alice", ["general"]⟩ ⟨"chat", "general", "bob", "hi", 0⟩ 5 =
      (⟨"alice", ["general"]⟩,
       [CEvent.route (stampChat ⟨"alice", ["general"]⟩ ⟨"chat", "general", "bob", "hi", 0⟩ 5)]) :=
  ((chat_dispatch ⟨"alice", ["general"]⟩ ⟨"chat", "general", "bob", "hi", 0⟩ 5 rfl
      (by decide) (by decide)).2.2 (by decide) (by decide) (by decide)).1

/-- Invariant backing the C9 hypothesis: the dispatch never inserts the empty
room name into a session's room set (a `join` with empty `room` is rejected
before insertion), so in every reachable session state each member of the
room set is non-empty. -/
theorem empty_name_never_joined (s : ClientState) (m : Message) (now : Nat)
    (h : "" ∉ s.rooms) : "" ∉ (handleMessage s m now).1.rooms := by
  by_cases h1 : m.type = "join"
  · by_cases h2 : m.room = ""
    · simp [handleMessage, h1, h2, h]
    · by_cases h3 : m.room ∈ s.rooms
      · simp [handleMessage, h1, h2, h3, h]
      · simp [handleMessage, h1, h2, h3, h]
        exact fun e => h2 e.symm
  · by_cases h3 : m.type = "leave"
    · by_cases h2 : m.room = ""
      · simp [handleMessage, h1, h3, h2, h]
      · simp [handleMessage, h1, h3, h2, List.mem_filter, h]
    · by_cases h4 : m.type = "chat"
      · by_cases h5 : m.room = "" ∨ m.text = ""
        · simp [handleMessage, h1, h3, h4, h5, h]
        · by_cases h6 : m.room ∈ s.rooms <;>
            simp [handleMessage, h1, h3, h4, h5, h6, h]
      · simp [handleMessage, h1, h3, h4, h]

/-- C9: a `join` frame for a room name already in the session's room set is
silently ignored: the session state (in particular its room set) is unchanged
and no event at all — no `Register` intent, no `error` frame — is produced.
(A name in the room set is never empty, since the empty name is rejected
before insertion; the hypothesis records that.) -/
theorem join_idempotent (s : ClientState) (m : Message) (now : Nat)
    (hT : m.type = "join") (hNe : m.room ≠ "") (hR : m.room ∈ s.rooms) :
    handleMessage s m now = (s, []) := by
  simp [handleMessage, hT, hNe, hR]

/-- C9 witness: a second `join` for "general" changes nothing and sends
nothing. -/
theorem join_idempotent_witness :
    handleMessage ⟨"alice", ["general"]⟩ ⟨"join", "general", "", "", 0⟩ 7 =
      (⟨"alice", ["general"]⟩, []) :=
  join_idempotent ⟨"alice", ["general"]⟩ ⟨"join", "general", "", "", 0⟩ 7 rfl
    (by decide) (by decide)

/-- The ORDER BY relation of the `History` query: descending `created_at`
(a row's `created_at` is the `timestamp` field of the scanned message). -/
def tsDesc (a b : Message) : Prop :=
  b.timestamp ≤ a.timestamp

instance : DecidableRel tsDesc := fun a b => Nat.decLe b.timestamp a.timestamp

instance : IsTotal Message tsDesc :=
  ⟨fun a b => Nat.le_total b.timestamp a.timestamp⟩

instance : IsTrans Message tsDesc :=
  ⟨fun _ _ _ hab hbc => Nat.le_trans hbc hab⟩

/-- `SQLiteStore.History` (`config.go` part, lines 165–194) over a table
modelled as the list of persisted rows: `WHERE room = ?`, then
`ORDER BY created_at DESC` (SQLite fixes no order among equal timestamps;
the embedding picks one by a sort), then `LIMIT ?`, then the in-Go reversal
to oldest-first. -/
def sqliteHistory (table : List Message) (room : String) (limit : Nat) : List Message :=
  ((List.insertionSort tsDesc (table.filter (fun m => m.room = room))).take limit).reverse

/-- C5: `History(room, limit)` returns at most `limit` messages, all of them
persisted rows of that room, ordered oldest-first (`created_at`
non-decreasing), and drawn from the most recent rows: every returned row has
`created_at` at least that of every row of the room excluded by the limit. -/
theorem history_spec (table : List Message) (room : String) (limit : Nat) :
    (sqliteHistory table room limit).length ≤ limit ∧
    List.Sorted (fun a b => a.timestamp ≤ b.timestamp) (sqliteHistory table room limit) ∧
    (∀ m ∈ sqliteHistory table room limit, m ∈ table ∧ m.room = room) ∧
    (∀ m ∈ sqliteHistory table room limit,
      ∀ m' ∈ (List.insertionSort tsDesc (table.filter (fun x => x.room = room))).drop limit,
        m'.timestamp ≤ m.timestamp) := by
  have hsort : List.Sorted tsDesc
      (List.insertionSort tsDesc (table.filter (fun m => m.room = room))) :=
    List.sorted_insertionSort tsDesc _
  refine ⟨?_, ?_, ?_, ?_⟩
  · simp [sqliteHistory]
  · have htake : List.Sorted tsDesc
        ((List.insertionSort tsDesc (table.filter (fun m => m.room = room))).take limit) :=
      hsort.sublist (List.take_sublist _ _)
    rw [sqliteHistory, List.Sorted, List.pairwise_reverse]
    exact htake
  · intro m hm
    rw [sqliteHistory, List.mem_reverse] at hm
    have hm2 := (List.take_sublist _ _).mem hm
    rw [List.mem_insertionSort, List.mem_filter] at hm2
    exact ⟨hm2.1, by simpa using hm2.2⟩
  · intro m hm m' hm'
    rw [sqliteHistory, List.mem_reverse] at hm
    have hsplit := hsort
    rw [← List.take_append_drop limit
      (List.insertionSort tsDesc (table.filter (fun x => x.room = room))),
      List.Sorted, List.pairwise_append] at hsplit
    exact hsplit.2.2 m hm m' hm'

/-- Concrete persisted table used by the C5 witness: three rows for "general"
(instants 10, 20, 30) and one for another room. -/
def tableW : List Message :=
  [⟨"chat", "general", "a", "m1", 10⟩,
   ⟨"chat", "general", "b", "m2", 20⟩,
   ⟨"chat", "other", "c", "m3", 15⟩,
   ⟨"chat", "general", "d", "m4", 30⟩]

/-- C5 witness: with limit 2, the returned row with instant 20 is a persisted
"general" row, and it is at least as recent as the row with instant 10 that
the limit excluded. -/
theorem history_spec_witness :
    ((⟨"chat", "general", "b", "m2", 20⟩ : Message) ∈ tableW ∧
      Message.room ⟨"chat", "general", "b", "m2", 20⟩ = "general") ∧
    Message.timestamp ⟨"chat", "general", "a", "m1", 10⟩ ≤
      Message.timestamp ⟨"chat", "general", "b", "m2", 20⟩ :=
  ⟨(history_spec tableW "general" 2).2.2.1 ⟨"chat", "general", "b", "m2", 20⟩ (by decide),
   (history_spec tableW "general" 2).2.2.2 ⟨"chat", "general", "b", "m2", 20⟩ (by decide)
     ⟨"chat", "general", "a", "m1", 10⟩ (by decide)⟩

end Chatterbox
